import Mathlib

/-!
Shallow embedding of the shipment parser-collector pipeline of
src/Parser-collector.py: the grouping engine, the aggregator, the report
renderer, the persistence-side derivations of save_group_to_db, and the
per-source orchestration, together with proofs of the specification
claims about them.

Timestamps are modelled as whole seconds (Nat) counted from a midnight
epoch; the textual pattern YYYY-MM-DD HH:MM:SS handled by
datetime.strptime always yields whole seconds, so this is exact.
A timestamp text cell is modelled by Cell below; statuses are the plain
lower-cased strings the scraper stores at line 225.
-/

/-- Raw text of a timestamp cell as seen by parse_datetime (line 130):
dash is the placeholder text, valid t is a text that parses to the
timestamp t, invalid is any other text, on which strptime raises and
parse_datetime returns None. -/
inductive Cell where
  | dash : Cell
  | valid : Nat → Cell
  | invalid : Cell
deriving DecidableEq, Repr

/-- Result of parse_datetime (and of the identical safe_parse at line 83)
on the text of a cell. -/
def Cell.parse : Cell → Option Nat
  | .valid t => some t
  | _ => none

/-- Comparison of a cell text with the dash placeholder. -/
def Cell.isDash : Cell → Bool
  | .dash => true
  | _ => false

/-- One enriched shipment row as appended at lines 236-244 and updated in
place with detail counts at lines 280-282. created is the parsed creation
timestamp; rows whose creation text fails to parse are skipped at
line 233 and never reach this stage. -/
structure Shipment where
  id : String
  created : Nat
  unload_started_at : Cell
  closed_at : Cell
  status : String
  sent : Nat
  received : Nat
  excess : Nat
deriving DecidableEq, Repr

/-- Hour component of a timestamp, as datetime.hour. -/
def hourOf (t : Nat) : Nat := t / 3600 % 24

/-- Ordering used by valid_shipments.sort with the created_dt key
(line 264) and by sorted at line 290. -/
def createdLE (a b : Shipment) : Prop := a.created ≤ b.created

instance : DecidableRel createdLE := fun a b => Nat.decLe a.created b.created

instance : IsTotal Shipment createdLE := ⟨fun a b => Nat.le_total a.created b.created⟩

instance : IsTrans Shipment createdLE := ⟨fun _ _ _ h1 h2 => Nat.le_trans h1 h2⟩

/-- Python sorting is stable, and a stable sort is determined uniquely by
the key order, so insertion sort models list.sort and sorted exactly. -/
def sortCreated (l : List Shipment) : List Shipment := List.insertionSort createdLE l

/-- Night predicate of line 286: creation hour strictly before 8. -/
def isNight (s : Shipment) : Bool := hourOf s.created < 8

/-- Day predicate of line 287: creation hour at least 8. -/
def isDay (s : Shipment) : Bool := 8 ≤ hourOf s.created

/-- One scan step of the day-bucket loop (lines 293-299): prev is the
shipment appended last (current[-1]), cur holds the rest of the current
run in reverse, and the third argument is the remaining day bucket. A gap
of at most one hour joins the run, a larger gap emits the run and starts
a new one. The gap is the signed difference of the two datetimes, exactly
as the timedelta comparison computes it. -/
def grpGo (prev : Shipment) (cur : List Shipment) : List Shipment → List (List Shipment)
  | [] => [(prev :: cur).reverse]
  | s :: rest =>
    if (s.created : Int) - (prev.created : Int) ≤ 3600 then
      grpGo s (prev :: cur) rest
    else
      (prev :: cur).reverse :: grpGo s [] rest

/-- Day-bucket run formation (lines 292-301). -/
def groupRuns : List Shipment → List (List Shipment)
  | [] => []
  | d :: ds => grpGo d [] ds

/-- Sort key of line 303: creation time of the last member of a group;
every group built by the engine is non-empty, so the default is inert. -/
def lastCreated (g : List Shipment) : Nat := ((g.getLast?).map Shipment.created).getD 0

/-- Descending comparison of line 303; Python reverse=True is the stable
sort by this relation. -/
def groupGE (g1 g2 : List Shipment) : Prop := lastCreated g2 ≤ lastCreated g1

instance : DecidableRel groupGE := fun a b => Nat.decLe (lastCreated b) (lastCreated a)

instance : IsTotal (List Shipment) groupGE := ⟨fun a b => Nat.le_total (lastCreated b) (lastCreated a)⟩

instance : IsTrans (List Shipment) groupGE := ⟨fun _ _ _ h1 h2 => Nat.le_trans h2 h1⟩

/-- The grouping engine, lines 264 and 285-303: sort by creation time,
split into night and day buckets, make the whole night bucket one group
(when non-empty), scan the day bucket into runs, and order the groups by
the creation time of their last member, descending. -/
def pipelineGroups (l : List Shipment) : List (List Shipment) :=
  List.insertionSort groupGE
    ((if ((sortCreated l).filter isNight).isEmpty then []
      else [sortCreated ((sortCreated l).filter isNight)]) ++
     groupRuns ((sortCreated l).filter isDay))

/-- Exception text used below for the Python comparison failure between
None and a datetime. -/
def pyCmpErr : String := "TypeError: NoneType and datetime are not comparable"

/-- Python min over a list of optional timestamps (None or datetime):
min of the empty list raises ValueError; a one-element list is returned
without any comparison, so min of the list holding a single None is None;
with two or more elements every element takes part in a comparison, so
any None raises TypeError; otherwise the result is the least timestamp. -/
def pyMin (l : List (Option Nat)) : Except String (Option Nat) :=
  match l with
  | [] => .error "ValueError: min arg is an empty sequence"
  | [x] => .ok x
  | _ :: _ :: _ =>
    if none ∈ l then .error pyCmpErr
    else .ok (l.filterMap id).min?

/-- Python max over a list of optional timestamps, mirror image of pyMin. -/
def pyMax (l : List (Option Nat)) : Except String (Option Nat) :=
  match l with
  | [] => .error "ValueError: max arg is an empty sequence"
  | [x] => .ok x
  | _ :: _ :: _ =>
    if none ∈ l then .error pyCmpErr
    else .ok (l.filterMap id).max?

/-- Two-digit zero padding, as in strftime fields and str(timedelta). -/
def pad2 (n : Nat) : String := if n < 10 then "0" ++ toString n else toString n

/-- Python str(timedelta(seconds=s)) for a whole number of seconds s,
possibly negative, normalized to days plus a remainder in [0, 86400);
the source then drops the absent fractional part by splitting on the
dot (lines 327 and 331). -/
def formatTimedelta (s : Int) : String :=
  let d := Int.ediv s 86400
  let r := (Int.emod s 86400).toNat
  let hms := toString (r / 3600) ++ ":" ++ pad2 (r / 60 % 60) ++ ":" ++ pad2 (r % 60)
  if d = 0 then hms
  else if d = 1 then "1 day, " ++ hms
  else if d = -1 then "-1 day, " ++ hms
  else toString d ++ " days, " ++ hms

/-- Gregorian civil date from a day number (day 0 is 1970-01-01), the
standard era-based conversion; datetime.strftime is library code outside
the repository, modelled by this exact calendar computation. -/
def civilFromDays (z : Nat) : Nat × Nat × Nat :=
  let z2 := z + 719468
  let era := z2 / 146097
  let doe := z2 % 146097
  let yoe := (doe - doe / 1460 + doe / 36524 - doe / 146096) / 365
  let y := yoe + era * 400
  let doy := doe - (365 * yoe + yoe / 4 - yoe / 100)
  let mp := (5 * doy + 2) / 153
  let d := doy - (153 * mp + 2) / 5 + 1
  let m := if mp < 10 then mp + 3 else mp - 9
  (if m ≤ 2 then y + 1 else y, m, d)

/-- Python strftime with the full year-month-day hour:minute:second
pattern on a whole-second timestamp (lines 345-346). -/
def strftimeFull (t : Nat) : String :=
  let ymd := civilFromDays (t / 86400)
  let r := t % 86400
  toString ymd.1 ++ "-" ++ pad2 ymd.2.1 ++ "-" ++ pad2 ymd.2.2 ++ " " ++
    pad2 (r / 3600) ++ ":" ++ pad2 (r / 60 % 60) ++ ":" ++ pad2 (r % 60)

/-- Python strftime with the hour:minute pattern (lines 333-334). -/
def strftimeHM (t : Nat) : String := pad2 (t / 3600 % 24) ++ ":" ++ pad2 (t / 60 % 60)

/-- Python str.capitalize as used at line 348. -/
def pyCapitalize (s : String) : String :=
  match s.data with
  | [] => ""
  | c :: cs => String.mk (c.toUpper :: cs.map Char.toLower)

/-- Status precedence shared by lines 311-319 and lines 99-104: any
member in progress wins, else all pending, else closed. -/
def statusOf (statuses : List String) : String :=
  if "in_progress" ∈ statuses then "in_progress"
  else if statuses.all (· == "pending") then "pending"
  else "closed"

/-- Unload-start texts of the members having one, parsed (line 308). -/
def startCells (g : List Shipment) : List (Option Nat) :=
  (g.filter fun s => !s.unload_started_at.isDash).map fun s => s.unload_started_at.parse

/-- Close texts of the members having one, parsed (line 320). -/
def closeCells (g : List Shipment) : List (Option Nat) :=
  (g.filter fun s => !s.closed_at.isDash).map fun s => s.closed_at.parse

/-- Line 309: earliest unload start of a group, None when no member has a
start text; an error is a raised exception. -/
def earliestStartE (g : List Shipment) : Except String (Option Nat) :=
  if (startCells g).isEmpty then .ok none else pyMin (startCells g)

/-- Lines 311-321: group status together with the latest close time,
which is computed only in the closed branch. -/
def statusCloseE (g : List Shipment) : Except String (String × Option Nat) :=
  if "in_progress" ∈ g.map Shipment.status then .ok ("in_progress", none)
  else if (g.map Shipment.status).all (· == "pending") then .ok ("pending", none)
  else
    match (if (closeCells g).isEmpty then Except.ok none else pyMax (closeCells g)) with
    | .error e => .error e
    | .ok lc => .ok ("closed", lc)

/-- Lines 323-326: whole-second duration kept for persistence; it stays 0
outside the closed branch with both endpoints, and int of total_seconds
on a whole-second difference is the exact signed difference. -/
def durSecs (st : String) (es lc : Option Nat) : Int :=
  match es, lc with
  | some a, some b => if st = "closed" then (b : Int) - (a : Int) else 0
  | _, _ => 0

/-- Lines 323-331: displayed duration text; the branch for non-closed or
incomplete groups uses the wall clock now, in seconds. -/
def durStr (st : String) (es lc : Option Nat) (now : Int) : String :=
  match es, lc with
  | some a, some b =>
    if st = "closed" then formatTimedelta ((b : Int) - (a : Int))
    else formatTimedelta (now - (a : Int))
  | some a, none => formatTimedelta (now - (a : Int))
  | none, _ => formatTimedelta 0

/-- Derived attributes the report loop computes for one group
(lines 307-331). -/
structure Agg where
  earliestStart : Option Nat
  status : String
  latestClose : Option Nat
  durationSeconds : Int
  durationStr : String
deriving DecidableEq, Repr

/-- Aggregation part of one report-loop iteration (lines 307-331); an
error is an exception escaping to the handler at line 359. -/
def aggregate (g : List Shipment) (now : Int) : Except String Agg :=
  match earliestStartE g with
  | .error e => .error e
  | .ok es =>
    match statusCloseE g with
    | .error e => .error e
    | .ok (st, lc) =>
      .ok { earliestStart := es, status := st, latestClose := lc,
            durationSeconds := durSecs st es lc,
            durationStr := durStr st es lc now }

/-- Line 355 hands the duration_seconds of the group to save_group_to_db. -/
def savedDuration (g : List Shipment) (now : Int) : Except String Int :=
  match aggregate g now with
  | .error e => .error e
  | .ok a => .ok a.durationSeconds

/-- Line 336. -/
def totalSent (g : List Shipment) : Nat := (g.map Shipment.sent).sum

/-- Line 337. -/
def totalReceived (g : List Shipment) : Nat := (g.map Shipment.received).sum

/-- Line 338. -/
def totalExcess (g : List Shipment) : Nat := (g.map Shipment.excess).sum

/-- The rendered text block of one group (lines 333-353); the group is
never empty when this runs, so the min and max defaults are inert. -/
def renderBlock (idx : Nat) (today : String) (g : List Shipment) (a : Agg) : String :=
  let firstHM := strftimeHM (((g.map Shipment.created).min?).getD 0)
  let lastHM := strftimeHM (((g.map Shipment.created).max?).getD 0)
  "Group: " ++ toString idx ++ "\n" ++
  "Date: " ++ today ++ "\n" ++
  "Arrival window: " ++ firstHM ++ " – " ++ lastHM ++ "\n" ++
  "Closed at: " ++ (match a.latestClose with | some t => strftimeFull t | none => "-") ++ "\n" ++
  "Unload started: " ++ (match a.earliestStart with | some t => strftimeFull t | none => "-") ++ "\n" ++
  "Unload duration: " ++ a.durationStr ++ "\n" ++
  "Status: " ++ pyCapitalize a.status ++ "\n" ++
  "Boxes: " ++ toString g.length ++ "\n" ++
  "Sent: " ++ toString (totalSent g) ++ "\n" ++
  "Received: " ++ toString (totalReceived g) ++ "\n" ++
  "Excess: " ++ toString (totalExcess g) ++ "\n"

/-- The report loop (lines 306-357) from a given group index on; a raised
exception aborts the loop and discards every block built so far. -/
def buildBlocks (today : String) (now : Int) (idx : Nat) :
    List (List Shipment) → Except String (List String)
  | [] => .ok []
  | g :: rest =>
    match aggregate g now with
    | .error e => .error e
    | .ok a =>
      match buildBlocks today now (idx + 1) rest with
      | .error e => .error e
      | .ok bs => .ok (renderBlock idx today g a :: bs)

/-- Lines 306-357: the header line of the source followed by one block
per group. -/
def buildSourceReport (pvsId today : String) (now : Int)
    (gs : List (List Shipment)) : Except String String :=
  match buildBlocks today now 1 gs with
  | .error e => .error e
  | .ok bs => .ok (String.join (("📍 ПВЗ: " ++ pvsId ++ "\n") :: bs))

/-- Python str.lower, a per-character lower-casing on the ASCII status
strings this pipeline stores. -/
def pyLower (s : String) : String := String.mk (s.data.map Char.toLower)

/-- Lower-cased member statuses of save_group_to_db (line 93). -/
def dbStatuses (g : List Shipment) : List String := g.map fun s => pyLower s.status

/-- Lines 99-104: status written to the database. -/
def dbStatus (g : List Shipment) : String :=
  if "in_progress" ∈ dbStatuses g then "in_progress"
  else if (dbStatuses g).all (· == "pending") then "pending"
  else "closed"

/-- Line 90: parsed start texts on the persistence path; safe_parse has
the semantics of parse_datetime. -/
def dbStartTimes (g : List Shipment) : List (Option Nat) :=
  (g.filter fun s => !s.unload_started_at.isDash).map fun s => s.unload_started_at.parse

/-- Line 91: earliest start written to the database; parse failures are
filtered out before taking min, which still raises ValueError when every
candidate failed to parse. -/
def dbUnloadStart (g : List Shipment) : Except String (Option Nat) :=
  if (dbStartTimes g).isEmpty then .ok none
  else
    if ((dbStartTimes g).filterMap id).isEmpty then
      .error "ValueError: min arg is an empty sequence"
    else .ok ((dbStartTimes g).filterMap id).min?

/-- Line 96: parsed close texts on the persistence path. -/
def dbCloseTimes (g : List Shipment) : List (Option Nat) :=
  (g.filter fun s => !s.closed_at.isDash).map fun s => s.closed_at.parse

/-- Lines 94-97: close time written to the database, computed only when
every lower-cased member status equals closed. -/
def dbClosedAt (g : List Shipment) : Except String (Option Nat) :=
  if (dbStatuses g).all (· == "closed") then
    if (dbCloseTimes g).isEmpty then .ok none
    else
      if ((dbCloseTimes g).filterMap id).isEmpty then
        .error "ValueError: max arg is an empty sequence"
      else .ok ((dbCloseTimes g).filterMap id).max?
  else .ok none

/-- Per-shipment detail metrics extracted from a detail page. -/
structure Details where
  sent : Nat
  received : Nat
  excess : Nat
deriving DecidableEq, Repr

/-- One scraped row before enrichment (lines 236-244). -/
structure RawShipment where
  id : String
  created : Nat
  unload_started_at : Cell
  closed_at : Cell
  status : String
  detailUrl : Option String
deriving DecidableEq, Repr

/-- Lines 268-272: a missing detail reference, or a failed or timed-out
fetch (the oracle answers none), yields zero counts. The oracle stands
for get_details_from_detail_page over the network. -/
def fetchDetails (oracle : String → Option Details) (s : RawShipment) :
    String × Details :=
  match s.detailUrl with
  | none => (s.id, ⟨0, 0, 0⟩)
  | some u => (s.id, (oracle u).getD ⟨0, 0, 0⟩)

/-- Lines 274-278: details_map keyed by shipment id; insertions happen in
completion order, modelled here as list order, one admissible schedule;
a later insertion with an equal id overwrites the earlier one. The map
is only ever consulted for keys that were inserted, so the base value is
inert there. -/
def detailsMap (oracle : String → Option Details) (l : List RawShipment) :
    String → Details :=
  l.foldl
    (fun m s => fun k => if k = (fetchDetails oracle s).1 then (fetchDetails oracle s).2 else m k)
    (fun _ => ⟨0, 0, 0⟩)

/-- Detail counts a shipment would receive from its own fetch alone. -/
def ownDetails (oracle : String → Option Details) (s : RawShipment) : Details :=
  (fetchDetails oracle s).2

/-- Lines 280-282: each shipment takes its counts from details_map under
its own id. -/
def toShipment (s : RawShipment) (d : Details) : Shipment :=
  ⟨s.id, s.created, s.unload_started_at, s.closed_at, s.status, d.sent, d.received, d.excess⟩

/-- The enrichment stage over a whole scraped list. -/
def enrich (oracle : String → Option Details) (l : List RawShipment) : List Shipment :=
  l.map fun s => toShipment s (detailsMap oracle l s.id)

/-- Return value of process_pvs: a report dict or an error dict. -/
inductive PvsResult where
  | report : String → PvsResult
  | error : String → PvsResult
deriving DecidableEq, Repr

/-- Everything one invocation of process_pvs observes from the network:
login page status and rejection, the rows collected by the crawl loop
(rows with unparseable creation text were already skipped at line 233,
so the filter at line 260 keeps everything), the detail-page oracle, the
date string and the wall clock. -/
structure PvsEnv where
  pvsId : String
  loginPageStatus : Nat
  loginRejected : Bool
  scraped : List RawShipment
  oracle : String → Option Details
  today : String
  now : Int

/-- process_pvs (lines 168-360): staged login and data checks, then the
enriched, grouped, aggregated and rendered report; any exception raised
while building the report is caught at line 359 and becomes the single
Critical error outcome of this source. -/
def processPvs (env : PvsEnv) : PvsResult :=
  if env.loginPageStatus ≠ 200 then
    .error ("Login page unreachable (" ++ toString env.loginPageStatus ++ ")")
  else if env.loginRejected then .error "Login failed"
  else if env.scraped.isEmpty then .error "No shipments found for today"
  else
    match buildSourceReport env.pvsId env.today env.now
        (pipelineGroups (enrich env.oracle env.scraped)) with
    | .ok msg => .report msg
    | .error e => .error ("Critical error: " ++ e)

/-- Lines 369-378: the single message the orchestrator records for one
source; the outer Except layer models the future raising in
future.result(). -/
def outcomeMessage (pvs : String) (r : Except String PvsResult) : String :=
  match r with
  | .error e => pvs ++ ": Unhandled error — " ++ e
  | .ok (.error e) => "Ошибка " ++ pvs ++ ": " ++ e
  | .ok (.report m) => m

/-- Lines 363-378 over arbitrary per-source results. -/
def mainMessages (runs : List (String × Except String PvsResult)) : List String :=
  runs.map fun p => outcomeMessage p.1 p.2

/-- The whole orchestrator run over the configured sources; processPvs is
total, so no future ever raises. -/
def runAll (cfg : List (String × PvsEnv)) : List String :=
  cfg.map fun p => outcomeMessage p.1 (.ok (processPvs p.2))

/-- Gap relation inside a run: at most one hour between consecutive
members. -/
def gapLe (a b : Shipment) : Prop := (b.created : Int) - (a.created : Int) ≤ 3600

/-- Boundary relation between consecutive runs: strictly more than one
hour between the last member of one run and the first member of the
next. -/
def runBoundary (r1 r2 : List Shipment) : Prop :=
  ∃ a b, r1.getLast? = some a ∧ r2.head? = some b ∧
    3600 < (b.created : Int) - (a.created : Int)

/-- Night bucket of the grouping engine on a given input. -/
def nightBucket (l : List Shipment) : List Shipment := (sortCreated l).filter isNight

/-- Scenario shipments of the specification, times as seconds from
midnight: 02:10 and 02:50 closed with start 02:15 and close 03:00, and
09:00, 09:40, 11:00 pending; listed deliberately out of order. -/
def exN1 : Shipment := ⟨"n1", 7800, Cell.valid 8100, Cell.valid 10800, "closed", 0, 0, 0⟩

def exN2 : Shipment := ⟨"n2", 10200, Cell.valid 8100, Cell.valid 10800, "closed", 0, 0, 0⟩

def exD1 : Shipment := ⟨"d1", 32400, Cell.dash, Cell.dash, "pending", 0, 0, 0⟩

def exD2 : Shipment := ⟨"d2", 34800, Cell.dash, Cell.dash, "pending", 0, 0, 0⟩

def exD3 : Shipment := ⟨"d3", 39600, Cell.dash, Cell.dash, "pending", 0, 0, 0⟩

def exScenario : List Shipment := [exD1, exN1, exD3, exN2, exD2]

/-- Expected attributes of the scenario night group. -/
def aggNight : Agg := ⟨some 8100, "closed", some 10800, 2700, "0:45:00"⟩

/-- Mixed pending and closed group: the pending member has no close text,
the closed member closes at 10:00. -/
def mix1 : Shipment := ⟨"m1", 32400, Cell.dash, Cell.dash, "pending", 0, 0, 0⟩

def mix2 : Shipment := ⟨"m2", 33000, Cell.dash, Cell.valid 36000, "closed", 0, 0, 0⟩

def mixGroup : List Shipment := [mix1, mix2]

/-- Attributes the report path derives for the mixed group. -/
def aggMix : Agg := ⟨none, "closed", some 36000, 0, "0:00:00"⟩

/-- Two raw rows sharing one id: the first has no detail reference, the
second has one whose fetch succeeds with sent 5. -/
def dup1 : RawShipment := ⟨"X", 32400, Cell.dash, Cell.dash, "pending", none⟩

def dup2 : RawShipment := ⟨"X", 33000, Cell.dash, Cell.dash, "pending", some "u"⟩

def dupOracle : String → Option Details := fun u => if u = "u" then some ⟨5, 0, 0⟩ else none

def dupList : List RawShipment := [dup1, dup2]

/-- Raw rows with distinct ids; the oracle times out on every fetch. -/
def wRaw1 : RawShipment := ⟨"A", 32400, Cell.dash, Cell.dash, "pending", none⟩

def wRaw2 : RawShipment := ⟨"B", 33000, Cell.dash, Cell.dash, "pending", some "u"⟩

def wRaws : List RawShipment := [wRaw1, wRaw2]

def wOracle : String → Option Details := fun _ => none

/-- A single in-progress shipment with an unload start: its displayed
duration depends on the wall clock. -/
def prog1 : Shipment := ⟨"p1", 32400, Cell.valid 32500, Cell.dash, "in_progress", 0, 0, 0⟩

def progGroup : List Shipment := [prog1]

def progA1 : Agg := ⟨some 32500, "in_progress", none, 0, "0:58:20"⟩

def progA2 : Agg := ⟨some 32500, "in_progress", none, 0, "1:58:20"⟩

/-- A group whose only unload-start text is present but unparseable. -/
def bad1 : Shipment := ⟨"b1", 32400, Cell.invalid, Cell.dash, "pending", 0, 0, 0⟩

def badSingle : List Shipment := [bad1]

/-- A group with two unload-start texts of which one is unparseable. -/
def bad2 : Shipment := ⟨"b2", 33000, Cell.valid 33100, Cell.dash, "pending", 0, 0, 0⟩

def badPair : List Shipment := [bad1, bad2]

/-- Raw rows that enrich and group into badPair. -/
def rawBad1 : RawShipment := ⟨"b1", 32400, Cell.invalid, Cell.dash, "pending", none⟩

def rawBad2 : RawShipment := ⟨"b2", 33000, Cell.valid 33100, Cell.dash, "pending", none⟩

def envBad : PvsEnv := ⟨"pvs1", 200, false, [rawBad1, rawBad2], fun _ => none, "2024-01-01", 0⟩

/-- C5: the specification scenario yields exactly three groups in the
descending final order, with the night group closed at duration 2700
seconds. -/
theorem scenario_three_groups :
    pipelineGroups exScenario = [[exD3], [exD1, exD2], [exN1, exN2]] ∧
    aggregate [exN1, exN2] 0 = .ok aggNight ∧
    aggNight.status = "closed" ∧ aggNight.durationSeconds = 2700 := by
  refine ⟨?_, ?_, rfl, rfl⟩ <;> rfl

/-- Head of an append with a non-empty left part. -/
theorem head?_append_left {α : Type _} (l₁ l₂ : List α) (h : l₁ ≠ []) :
    (l₁ ++ l₂).head? = l₁.head? := by
  cases l₁ with
  | nil => exact absurd rfl h
  | cons a l => rfl

/-- The scan emits exactly the shipments it was given: current run
(reversed) plus the rest. -/
theorem grpGo_flatten : ∀ (rest : List Shipment) (prev : Shipment) (cur : List Shipment),
    (grpGo prev cur rest).flatten = cur.reverse ++ prev :: rest := by
  intro rest
  induction rest with
  | nil => intro prev cur; simp [grpGo]
  | cons s rest ih =>
    intro prev cur
    by_cases h : (s.created : Int) - (prev.created : Int) ≤ 3600
    · simp [grpGo, h, ih s (prev :: cur)]
    · simp [grpGo, h, ih s []]

/-- Day runs cover the day bucket exactly. -/
theorem groupRuns_flatten (l : List Shipment) : (groupRuns l).flatten = l := by
  cases l with
  | nil => rfl
  | cons d ds => simpa [groupRuns] using grpGo_flatten ds d []

/-- Every run the scan emits is non-empty. -/
theorem grpGo_ne_nil : ∀ (rest : List Shipment) (prev : Shipment) (cur : List Shipment),
    ∀ g ∈ grpGo prev cur rest, g ≠ [] := by
  intro rest
  induction rest with
  | nil =>
    intro prev cur g hg
    simp [grpGo] at hg
    subst hg
    simp
  | cons s rest ih =>
    intro prev cur g hg
    by_cases h : (s.created : Int) - (prev.created : Int) ≤ 3600
    · exact ih s (prev :: cur) g (by simpa [grpGo, h] using hg)
    · rw [show grpGo prev cur (s :: rest) = (prev :: cur).reverse :: grpGo s [] rest from by
        simp [grpGo, h]] at hg
      rcases List.mem_cons.1 hg with hg | hg
      · subst hg; simp
      · exact ih s [] g hg

theorem groupRuns_ne_nil (l : List Shipment) : ∀ g ∈ groupRuns l, g ≠ [] := by
  cases l with
  | nil => intro g hg; simp [groupRuns] at hg
  | cons d ds => exact grpGo_ne_nil ds d []

/-- Inside every emitted run, consecutive members are at most one hour
apart. -/
theorem grpGo_chain : ∀ (rest : List Shipment) (prev : Shipment) (cur : List Shipment),
    List.Chain' gapLe ((prev :: cur).reverse) →
    ∀ g ∈ grpGo prev cur rest, List.Chain' gapLe g := by
  intro rest
  induction rest with
  | nil =>
    intro prev cur hch g hg
    simp [grpGo] at hg
    subst hg
    simpa using hch
  | cons s rest ih =>
    intro prev cur hch g hg
    by_cases h : (s.created : Int) - (prev.created : Int) ≤ 3600
    · refine ih s (prev :: cur) ?_ g (by simpa [grpGo, h] using hg)
      rw [List.reverse_cons]
      refine List.chain'_append.2 ⟨hch, List.chain'_singleton s, ?_⟩
      intro x hx y hy
      rw [List.getLast?_reverse, List.head?_cons, Option.mem_def, Option.some.injEq] at hx
      rw [List.head?_cons, Option.mem_def, Option.some.injEq] at hy
      subst hx
      subst hy
      exact h
    · rw [show grpGo prev cur (s :: rest) = (prev :: cur).reverse :: grpGo s [] rest from by
        simp [grpGo, h]] at hg
      rcases List.mem_cons.1 hg with hg | hg
      · subst hg; exact hch
      · exact ih s [] (by simp) g hg

theorem groupRuns_chain (l : List Shipment) : ∀ g ∈ groupRuns l, List.Chain' gapLe g := by
  cases l with
  | nil => intro g hg; simp [groupRuns] at hg
  | cons d ds => exact grpGo_chain ds d [] (by simp)

/-- The scan result is non-empty and its first run starts with the oldest
member of the current run. -/
theorem grpGo_head : ∀ (rest : List Shipment) (prev : Shipment) (cur : List Shipment),
    ∃ g gs, grpGo prev cur rest = g :: gs ∧ g.head? = (prev :: cur).reverse.head? := by
  intro rest
  induction rest with
  | nil => intro prev cur; exact ⟨(prev :: cur).reverse, [], rfl, rfl⟩
  | cons s rest ih =>
    intro prev cur
    by_cases h : (s.created : Int) - (prev.created : Int) ≤ 3600
    · obtain ⟨g, gs, heq, hhd⟩ := ih s (prev :: cur)
      refine ⟨g, gs, by simp [grpGo, h, heq], ?_⟩
      rw [hhd, List.reverse_cons, head?_append_left ((prev :: cur).reverse) [s] (by simp)]
    · exact ⟨(prev :: cur).reverse, grpGo s [] rest, by simp [grpGo, h], rfl⟩

/-- Consecutive emitted runs are separated by a gap strictly greater than
one hour, measured between the last member of the earlier run and the
first member of the later run. -/
theorem grpGo_boundary : ∀ (rest : List Shipment) (prev : Shipment) (cur : List Shipment),
    List.Chain' runBoundary (grpGo prev cur rest) := by
  intro rest
  induction rest with
  | nil => intro prev cur; simp [grpGo]
  | cons s rest ih =>
    intro prev cur
    by_cases h : (s.created : Int) - (prev.created : Int) ≤ 3600
    · simpa [grpGo, h] using ih s (prev :: cur)
    · rw [show grpGo prev cur (s :: rest) = (prev :: cur).reverse :: grpGo s [] rest from by
        simp [grpGo, h]]
      obtain ⟨g, gs, heq, hhd⟩ := grpGo_head rest s []
      rw [heq]
      refine List.chain'_cons'.2 ⟨?_, by rw [← heq]; exact ih s []⟩
      intro y hy
      rw [List.head?_cons, Option.mem_def, Option.some.injEq] at hy
      subst hy
      refine ⟨prev, s, ?_, by simpa using hhd, Int.not_le.1 h⟩
      rw [List.getLast?_reverse]
      rfl

theorem groupRuns_boundary (l : List Shipment) : List.Chain' runBoundary (groupRuns l) := by
  cases l with
  | nil => simp [groupRuns]
  | cons d ds => exact grpGo_boundary ds d []

/-- The two bucket predicates are complementary. -/
theorem isDay_eq_not_isNight (s : Shipment) : isDay s = !isNight s := by
  unfold isDay isNight
  rcases Nat.lt_or_ge (hourOf s.created) 8 with h | h
  · rw [decide_eq_true h, decide_eq_false (Nat.not_le.mpr h)]
    rfl
  · rw [decide_eq_true h, decide_eq_false (Nat.not_lt.mpr h)]
    rfl

theorem sortCreated_perm (l : List Shipment) : (sortCreated l).Perm l :=
  List.perm_insertionSort createdLE l

theorem sortCreated_ne_nil {l : List Shipment} (h : l ≠ []) : sortCreated l ≠ [] := by
  intro hc
  have hp := sortCreated_perm l
  rw [hc] at hp
  exact h hp.symm.eq_nil

/-- The final descending sort permutes the night-plus-runs group list. -/
theorem pipelineGroups_perm_base (l : List Shipment) :
    (pipelineGroups l).Perm
      ((if ((sortCreated l).filter isNight).isEmpty then []
        else [sortCreated ((sortCreated l).filter isNight)]) ++
       groupRuns ((sortCreated l).filter isDay)) :=
  List.perm_insertionSort groupGE _

/-- The two buckets together permute the input. -/
theorem day_perm_compl (l : List Shipment) :
    ((sortCreated l).filter isNight ++ (sortCreated l).filter isDay).Perm l := by
  have hfe : (sortCreated l).filter isDay = (sortCreated l).filter (fun s => !isNight s) :=
    List.filter_congr (fun s _ => isDay_eq_not_isNight s)
  rw [hfe]
  exact (List.filter_append_perm isNight (sortCreated l)).trans (sortCreated_perm l)

/-- The groups flatten to a permutation of the input. -/
theorem pipelineGroups_flatten_perm (l : List Shipment) :
    ((pipelineGroups l).flatten).Perm l := by
  refine ((pipelineGroups_perm_base l).flatten).trans ?_
  rw [List.flatten_append, groupRuns_flatten]
  by_cases hN : ((sortCreated l).filter isNight).isEmpty
  · rw [if_pos hN]
    have he : (sortCreated l).filter isNight = [] := List.isEmpty_iff.1 hN
    have hd := day_perm_compl l
    rw [he] at hd
    simpa using hd
  · rw [if_neg hN]
    simp only [List.flatten_cons, List.flatten_nil, List.append_nil]
    exact ((sortCreated_perm _).append_right _).trans (day_perm_compl l)

/-- Members of day runs come from the day bucket. -/
theorem mem_groupRuns_mem {D : List Shipment} {g : List Shipment} (hg : g ∈ groupRuns D)
    {s : Shipment} (hs : s ∈ g) : s ∈ D := by
  have hm := List.mem_flatten_of_mem hg hs
  rwa [groupRuns_flatten] at hm

theorem not_night_and_day {s : Shipment} (h1 : isNight s = true) (h2 : isDay s = true) :
    False := by
  rw [isDay_eq_not_isNight, h1] at h2
  simp at h2

/-- C2: the grouping output is a partition of its input: groups are
non-empty, flatten to a permutation of the input (every shipment exactly
once), and are pairwise disjoint whenever the input has no duplicates. -/
theorem groups_partition :
    ∀ l : List Shipment,
      (∀ g ∈ pipelineGroups l, g ≠ []) ∧
      ((pipelineGroups l).flatten).Perm l ∧
      (l.Nodup → (pipelineGroups l).Pairwise List.Disjoint) := by
  intro l
  refine ⟨?_, pipelineGroups_flatten_perm l, ?_⟩
  · intro g hg
    have hb := (pipelineGroups_perm_base l).mem_iff.1 hg
    rcases List.mem_append.1 hb with hkey | hrun
    · by_cases hN : ((sortCreated l).filter isNight).isEmpty
      · rw [if_pos hN] at hkey
        simp at hkey
      · rw [if_neg hN] at hkey
        rcases List.mem_cons.1 hkey with hkey | hkey
        · subst hkey
          exact sortCreated_ne_nil fun hc => hN (List.isEmpty_iff.2 hc)
        · simp at hkey
    · exact groupRuns_ne_nil _ g hrun
  · intro hnd
    have hfl : ((pipelineGroups l).flatten).Nodup :=
      ((pipelineGroups_flatten_perm l).nodup_iff).2 hnd
    exact (List.nodup_flatten.1 hfl).2

/-- C2 witness at the concrete scenario input. -/
theorem groups_partition_w :
    (∀ g ∈ pipelineGroups exScenario, g ≠ []) ∧
    ((pipelineGroups exScenario).flatten).Perm exScenario ∧
    (pipelineGroups exScenario).Pairwise List.Disjoint :=
  ⟨(groups_partition exScenario).1, (groups_partition exScenario).2.1,
   (groups_partition exScenario).2.2 (by decide)⟩

/-- C1: on a day bucket sorted ascending by creation time the scan keeps
consecutive members at most one hour apart inside every run and puts a
gap of strictly more than one hour between consecutive runs, so a new
run starts exactly when the gap exceeds one hour; and whenever the night
bucket is non-empty it forms exactly one group of the output, sorted
ascending by creation time, and every output group containing a night
shipment is that group. -/
theorem grouping_runs_and_night :
    (∀ l : List Shipment, List.Sorted createdLE l →
      (∀ g ∈ groupRuns l, List.Chain' gapLe g) ∧
      List.Chain' runBoundary (groupRuns l)) ∧
    (∀ l : List Shipment, nightBucket l ≠ [] →
      ((pipelineGroups l).countP fun g => decide (g = sortCreated (nightBucket l))) = 1 ∧
      List.Sorted createdLE (sortCreated (nightBucket l)) ∧
      ∀ g ∈ pipelineGroups l, (∃ s ∈ g, isNight s = true) →
        g = sortCreated (nightBucket l)) := by
  constructor
  · intro l _
    exact ⟨groupRuns_chain l, groupRuns_boundary l⟩
  · intro l hN
    have hNe : ¬ ((sortCreated l).filter isNight).isEmpty = true :=
      fun hc => hN (List.isEmpty_iff.1 hc)
    have hperm := pipelineGroups_perm_base l
    rw [if_neg hNe] at hperm
    have hnotrun : sortCreated (nightBucket l) ∉ groupRuns ((sortCreated l).filter isDay) := by
      intro hmem
      obtain ⟨s, hs⟩ := List.exists_mem_of_ne_nil _ (sortCreated_ne_nil hN)
      have hsN : s ∈ nightBucket l := (sortCreated_perm (nightBucket l)).mem_iff.1 hs
      have hnight : isNight s = true := (List.mem_filter.1 hsN).2
      have hday : isDay s = true := (List.mem_filter.1 (mem_groupRuns_mem hmem hs)).2
      exact not_night_and_day hnight hday
    refine ⟨?_, List.sorted_insertionSort createdLE (nightBucket l), ?_⟩
    · have hzero : ((groupRuns ((sortCreated l).filter isDay)).countP
          fun g => decide (g = sortCreated (nightBucket l))) = 0 :=
        List.countP_eq_zero.2 fun a ha hpa => hnotrun (of_decide_eq_true hpa ▸ ha)
      rw [hperm.countP_eq (fun g => decide (g = sortCreated (nightBucket l))),
        List.singleton_append, List.countP_cons, hzero]
      simp [nightBucket]
    · intro g hg hsome
      obtain ⟨s, hs, hnight⟩ := hsome
      have hb := hperm.mem_iff.1 hg
      rw [List.singleton_append] at hb
      rcases List.mem_cons.1 hb with hb | hb
      · exact hb
      · exact absurd hnight fun _ =>
          not_night_and_day hnight ((List.mem_filter.1 (mem_groupRuns_mem hb hs)).2)

/-- C1 witness at concrete inputs: a sorted three-shipment day bucket
and the scenario input with its non-empty night bucket. -/
theorem grouping_runs_and_night_w :
    ((∀ g ∈ groupRuns [exD1, exD2, exD3], List.Chain' gapLe g) ∧
     List.Chain' runBoundary (groupRuns [exD1, exD2, exD3])) ∧
    (((pipelineGroups exScenario).countP
        fun g => decide (g = sortCreated (nightBucket exScenario))) = 1 ∧
     List.Sorted createdLE (sortCreated (nightBucket exScenario)) ∧
     ∀ g ∈ pipelineGroups exScenario, (∃ s ∈ g, isNight s = true) →
       g = sortCreated (nightBucket exScenario)) :=
  ⟨grouping_runs_and_night.1 [exD1, exD2, exD3] (by decide),
   grouping_runs_and_night.2 exScenario (by decide)⟩

/-- Decomposition of a successful aggregation into its stages. -/
theorem aggregate_ok {g : List Shipment} {now : Int} {a : Agg}
    (h : aggregate g now = .ok a) :
    earliestStartE g = .ok a.earliestStart ∧
    statusCloseE g = .ok (a.status, a.latestClose) ∧
    a.durationSeconds = durSecs a.status a.earliestStart a.latestClose ∧
    a.durationStr = durStr a.status a.earliestStart a.latestClose now := by
  unfold aggregate at h
  split at h
  · exact absurd h (by simp)
  next es heq =>
    split at h
    · exact absurd h (by simp)
    next st lc heq2 =>
      injection h with h
      subst h
      exact ⟨heq, heq2, rfl, rfl⟩

/-- The status a successful statusCloseE reports follows the shared
precedence function. -/
theorem statusCloseE_status {g : List Shipment} {st : String} {lc : Option Nat}
    (h : statusCloseE g = .ok (st, lc)) :
    st = statusOf (g.map Shipment.status) := by
  unfold statusCloseE at h
  unfold statusOf
  by_cases h1 : "in_progress" ∈ g.map Shipment.status
  · rw [if_pos h1] at h
    rw [if_pos h1]
    simp at h
    exact h.1.symm
  · rw [if_neg h1] at h
    rw [if_neg h1]
    by_cases h2 : (g.map Shipment.status).all (· == "pending") = true
    · rw [if_pos h2] at h
      rw [if_pos h2]
      simp at h
      exact h.1.symm
    · rw [if_neg h2] at h
      rw [if_neg h2]
      split at h
      · exact absurd h (by simp)
      · simp at h
        exact h.1.symm

/-- Case analysis of a successful statusCloseE. -/
theorem statusCloseE_cases (g : List Shipment) {st : String} {lc : Option Nat}
    (h : statusCloseE g = .ok (st, lc)) :
    (st = "in_progress" ∧ lc = none) ∨ (st = "pending" ∧ lc = none) ∨
    (st = "closed" ∧
      (if (closeCells g).isEmpty then Except.ok none else pyMax (closeCells g)) =
        .ok lc) := by
  unfold statusCloseE at h
  by_cases h1 : "in_progress" ∈ g.map Shipment.status
  · rw [if_pos h1] at h
    simp at h
    exact Or.inl ⟨h.1.symm, h.2.symm⟩
  · rw [if_neg h1] at h
    by_cases h2 : (g.map Shipment.status).all (· == "pending") = true
    · rw [if_pos h2] at h
      simp at h
      exact Or.inr (Or.inl ⟨h.1.symm, h.2.symm⟩)
    · rw [if_neg h2] at h
      split at h
      · exact absurd h (by simp)
      next lc2 heq =>
        simp at h
        exact Or.inr (Or.inr ⟨h.1.symm, by rw [heq, h.2]⟩)

/-- C3: the derived group status is a total function of the member status
multiset and obeys the precedence in_progress, then all-pending, then
closed; the report path computes this function, and the persistence path
computes the same status on statuses fixed by lower-casing, which is how
the scraper stores them. -/
theorem group_status_derivation :
    ∀ g : List Shipment,
      (("in_progress" ∈ g.map Shipment.status →
          statusOf (g.map Shipment.status) = "in_progress") ∧
       ("in_progress" ∉ g.map Shipment.status → (∀ s ∈ g, s.status = "pending") →
          statusOf (g.map Shipment.status) = "pending") ∧
       ("in_progress" ∉ g.map Shipment.status → ¬ (∀ s ∈ g, s.status = "pending") →
          statusOf (g.map Shipment.status) = "closed")) ∧
      (∀ l1 l2 : List String, l1.Perm l2 → statusOf l1 = statusOf l2) ∧
      (∀ (now : Int) (a : Agg), aggregate g now = .ok a →
          a.status = statusOf (g.map Shipment.status)) ∧
      ((∀ s ∈ g, pyLower s.status = s.status) →
          dbStatus g = statusOf (g.map Shipment.status)) := by
  intro g
  refine ⟨⟨?_, ?_, ?_⟩, ?_, ?_, ?_⟩
  · intro hmem
    simp [statusOf, hmem]
  · intro hmem hall
    have ha : (g.map Shipment.status).all (· == "pending") = true :=
      List.all_eq_true.2 fun x hx => by
        obtain ⟨s, hs, hxs⟩ := List.mem_map.1 hx
        exact beq_iff_eq.mpr (hxs ▸ hall s hs)
    simp [statusOf, hmem, ha]
  · intro hmem hnall
    have ha : ¬ (g.map Shipment.status).all (· == "pending") = true := fun hc =>
      hnall fun s hs =>
        beq_iff_eq.mp (List.all_eq_true.1 hc s.status (List.mem_map_of_mem Shipment.status hs))
    simp [statusOf, hmem, ha]
  · intro l1 l2 hp
    unfold statusOf
    by_cases hm : "in_progress" ∈ l1
    · rw [if_pos hm, if_pos (hp.mem_iff.1 hm)]
    · rw [if_neg hm, if_neg fun hc => hm (hp.mem_iff.2 hc)]
      have hall : (l1.all (· == "pending")) = (l2.all (· == "pending")) := by
        by_cases hx : ∀ x ∈ l2, (x == "pending") = true
        · rw [List.all_eq_true.2 hx, List.all_eq_true.2 fun x hxm => hx x (hp.mem_iff.1 hxm)]
        · have hx1 : ¬ ∀ x ∈ l1, (x == "pending") = true := fun hc =>
            hx fun x hxm => hc x (hp.mem_iff.2 hxm)
          rw [Bool.eq_false_iff.2 fun hc => hx1 (List.all_eq_true.1 hc),
            Bool.eq_false_iff.2 fun hc => hx (List.all_eq_true.1 hc)]
      rw [hall]
  · intro now a h
    exact statusCloseE_status (aggregate_ok h).2.1
  · intro hlow
    have hb : dbStatus g = statusOf (dbStatuses g) := rfl
    rw [hb, show dbStatuses g = g.map Shipment.status from List.map_congr_left hlow]

/-- C3 witness at the mixed group, whose statuses are lower-case. -/
theorem group_status_derivation_w :
    dbStatus mixGroup = statusOf (mixGroup.map Shipment.status) ∧
    statusOf (mixGroup.map Shipment.status) = "closed" :=
  ⟨(group_status_derivation mixGroup).2.2.2 (by decide),
   (group_status_derivation mixGroup).1.2.2 (by decide) (by decide)⟩

/-- C4: a closed group with both endpoints gets the exact whole-second
difference as its duration, in the seconds field and in the text; any
other group keeps duration_seconds 0 and displays the wall-clock elapsed
time from the earliest start, or zero without one; the value passed to
persistence is exactly duration_seconds, so a nonzero persisted duration
only arises from the closed branch with both endpoints. -/
theorem unload_duration_rule :
    ∀ (g : List Shipment) (now : Int) (a : Agg), aggregate g now = .ok a →
      (∀ es lc, a.status = "closed" → a.earliestStart = some es →
        a.latestClose = some lc →
        a.durationSeconds = (lc : Int) - (es : Int) ∧
        a.durationStr = formatTimedelta ((lc : Int) - (es : Int))) ∧
      (¬(a.status = "closed" ∧ a.earliestStart.isSome ∧ a.latestClose.isSome) →
        a.durationSeconds = 0 ∧
        (∀ es, a.earliestStart = some es →
          a.durationStr = formatTimedelta (now - (es : Int))) ∧
        (a.earliestStart = none → a.durationStr = formatTimedelta 0)) ∧
      (a.durationSeconds ≠ 0 →
        a.status = "closed" ∧ a.earliestStart.isSome ∧ a.latestClose.isSome) ∧
      savedDuration g now = .ok a.durationSeconds := by
  intro g now a h
  obtain ⟨_, _, hds, hstr⟩ := aggregate_ok h
  refine ⟨?_, ?_, ?_, by simp [savedDuration, h]⟩
  · intro es lc hst hes hlc
    rw [hds, hstr, hst, hes, hlc]
    simp [durSecs, durStr]
  · intro hnc
    refine ⟨?_, ?_, ?_⟩
    · rw [hds]
      cases hes : a.earliestStart with
      | none => simp [durSecs]
      | some x =>
        cases hlc : a.latestClose with
        | none => simp [durSecs]
        | some y =>
          have hst : ¬ a.status = "closed" := fun hc =>
            hnc ⟨hc, by simp [hes], by simp [hlc]⟩
          simp [durSecs, hst]
    · intro es hes
      rw [hstr, hes]
      cases hlc : a.latestClose with
      | none => simp [durStr]
      | some y =>
        have hst : ¬ a.status = "closed" := fun hc =>
          hnc ⟨hc, by simp [hes], by simp [hlc]⟩
        simp [durStr, hst]
    · intro hes
      rw [hstr, hes]
      cases hlc : a.latestClose <;> simp [durStr]
  · intro hne
    rw [hds] at hne
    cases hes : a.earliestStart with
    | none => rw [hes] at hne; simp [durSecs] at hne
    | some x =>
      cases hlc : a.latestClose with
      | none => rw [hes, hlc] at hne; simp [durSecs] at hne
      | some y =>
        rw [hes, hlc] at hne
        by_cases hst : a.status = "closed"
        · exact ⟨hst, by simp [hes], by simp [hlc]⟩
        · simp [durSecs, hst] at hne

/-- C4 witness at the closed scenario night group. -/
theorem unload_duration_rule_w :
    aggNight.durationSeconds = ((10800 : Nat) : Int) - ((8100 : Nat) : Int) ∧
    aggNight.durationStr = formatTimedelta (((10800 : Nat) : Int) - ((8100 : Nat) : Int)) :=
  (unload_duration_rule [exN1, exN2] 0 aggNight rfl).1 8100 10800 rfl rfl rfl

/-- When no member has an unparseable text in the selected cell, the
parsed cell list contains no None. -/
theorem none_not_mem_cells {g : List Shipment} {f : Shipment → Cell}
    (hni : ∀ s ∈ g, f s ≠ Cell.invalid) :
    none ∉ (g.filter fun s => !(f s).isDash).map fun s => (f s).parse := by
  intro hmem
  obtain ⟨s, hs, hparse⟩ := List.mem_map.1 hmem
  have hsf := List.mem_filter.1 hs
  cases hc : f s with
  | dash => rw [hc] at hsf; simp [Cell.isDash] at hsf
  | valid t => rw [hc] at hparse; simp [Cell.parse] at hparse
  | invalid => exact hni s hsf.1 hc

/-- A list of parsed cells without None and without entries keeps a value
after the None filter. -/
theorem filterMap_id_ne_nil {l : List (Option Nat)} (h : none ∉ l) (hne : l ≠ []) :
    l.filterMap id ≠ [] := by
  cases l with
  | nil => exact absurd rfl hne
  | cons x t =>
    cases x with
    | none => exact absurd (List.mem_cons_self _ _) h
    | some v => simp [List.filterMap_cons]

/-- Python min over a None-free non-empty list of optional timestamps is
the least value. -/
theorem pyMin_no_none {l : List (Option Nat)} (h : none ∉ l) (hne : l ≠ []) :
    pyMin l = .ok (l.filterMap id).min? := by
  match l with
  | [] => exact absurd rfl hne
  | [x] =>
    cases x with
    | none => exact absurd (List.mem_cons_self _ _) h
    | some v => rfl
  | x :: y :: t =>
    rw [show pyMin (x :: y :: t) =
        (if none ∈ x :: y :: t then .error pyCmpErr
         else .ok ((x :: y :: t).filterMap id).min?) from rfl, if_neg h]

/-- Python max over a None-free non-empty list of optional timestamps is
the greatest value. -/
theorem pyMax_no_none {l : List (Option Nat)} (h : none ∉ l) (hne : l ≠ []) :
    pyMax l = .ok (l.filterMap id).max? := by
  match l with
  | [] => exact absurd rfl hne
  | [x] =>
    cases x with
    | none => exact absurd (List.mem_cons_self _ _) h
    | some v => rfl
  | x :: y :: t =>
    rw [show pyMax (x :: y :: t) =
        (if none ∈ x :: y :: t then .error pyCmpErr
         else .ok ((x :: y :: t).filterMap id).max?) from rfl, if_neg h]

/-- The guarded max of the source (max if the list is non-empty, else
None) on a None-free list. -/
theorem optE_max {l : List (Option Nat)} (h : none ∉ l) :
    (if l.isEmpty then (Except.ok none : Except String (Option Nat)) else pyMax l) =
      .ok (l.filterMap id).max? := by
  cases l with
  | nil => rfl
  | cons x t =>
    rw [if_neg (by simp)]
    exact pyMax_no_none h (by simp)

/-- The guarded min of the source on a None-free list. -/
theorem optE_min {l : List (Option Nat)} (h : none ∉ l) :
    (if l.isEmpty then (Except.ok none : Except String (Option Nat)) else pyMin l) =
      .ok (l.filterMap id).min? := by
  cases l with
  | nil => rfl
  | cons x t =>
    rw [if_neg (by simp)]
    exact pyMin_no_none h (by simp)

/-- C6 corrected: with all present close texts parseable, the rendering
path computes the latest close exactly when the derived group status is
closed, as the maximum of the parsed close timestamps of members having
one; the persistence path computes its close time only when every
lower-cased member status equals closed, so a mixed pending and closed
group gets a close time in the report but not in the database record. -/
theorem latest_close_two_paths :
    ∀ (g : List Shipment) (now : Int) (a : Agg),
      (∀ s ∈ g, s.closed_at ≠ Cell.invalid) →
      aggregate g now = .ok a →
      (a.status = "closed" → a.latestClose = ((closeCells g).filterMap id).max?) ∧
      (a.status ≠ "closed" → a.latestClose = none) ∧
      dbClosedAt g = .ok (if (dbStatuses g).all (· == "closed")
        then ((closeCells g).filterMap id).max? else none) := by
  intro g now a hni h
  obtain ⟨_, h2, _, _⟩ := aggregate_ok h
  have hnm : none ∉ closeCells g := none_not_mem_cells hni
  refine ⟨?_, ?_, ?_⟩
  · intro hst
    rcases statusCloseE_cases g h2 with ⟨hs, _⟩ | ⟨hs, _⟩ | ⟨_, hE⟩
    · rw [hs] at hst; exact absurd hst (by decide)
    · rw [hs] at hst; exact absurd hst (by decide)
    · rw [optE_max hnm] at hE
      injection hE with hE
      exact hE.symm
  · intro hst
    rcases statusCloseE_cases g h2 with ⟨_, hl⟩ | ⟨_, hl⟩ | ⟨hs, _⟩
    · exact hl
    · exact hl
    · exact absurd hs hst
  · unfold dbClosedAt
    by_cases hall : (dbStatuses g).all (· == "closed") = true
    · rw [if_pos hall, if_pos hall]
      by_cases he : (dbCloseTimes g).isEmpty = true
      · rw [if_pos he]
        have hnil : closeCells g = [] := List.isEmpty_iff.1 he
        rw [hnil]
        rfl
      · rw [if_neg he,
          if_neg (by
            simp only [List.isEmpty_iff]
            exact filterMap_id_ne_nil hnm fun hc => he (List.isEmpty_iff.2 hc))]
        rfl
    · rw [if_neg hall, if_neg hall]

/-- C6 counterexample: in the mixed pending and closed group the derived
status is closed and the report computes the latest close 10:00, while
the persistence path stores no close time for the same group. -/
theorem latest_close_two_paths_cex :
    aggregate mixGroup 0 = .ok aggMix ∧ aggMix.status = "closed" ∧
    aggMix.latestClose = some 36000 ∧ dbClosedAt mixGroup = .ok none :=
  ⟨rfl, rfl, rfl, rfl⟩

/-- C6 witness at the mixed group. -/
theorem latest_close_two_paths_w :
    (aggMix.status = "closed" →
      aggMix.latestClose = ((closeCells mixGroup).filterMap id).max?) ∧
    dbClosedAt mixGroup = .ok (if (dbStatuses mixGroup).all (· == "closed")
      then ((closeCells mixGroup).filterMap id).max? else none) :=
  ⟨(latest_close_two_paths mixGroup 0 aggMix (by decide) rfl).1,
   (latest_close_two_paths mixGroup 0 aggMix (by decide) rfl).2.2⟩

/-- A fetch result is always keyed by the id of the shipment that
requested it. -/
theorem fetchDetails_fst (oracle : String → Option Details) (s : RawShipment) :
    (fetchDetails oracle s).1 = s.id := by
  cases h : s.detailUrl <;> simp [fetchDetails, h]

/-- With pairwise distinct ids, the shared details map answers every
shipment with its own fetch result. -/
theorem detailsMap_eq_own (oracle : String → Option Details) :
    ∀ l : List RawShipment, (l.map RawShipment.id).Nodup →
      ∀ s ∈ l, detailsMap oracle l s.id = ownDetails oracle s := by
  intro l
  induction l using List.reverseRecOn with
  | nil => intro _ s hs; simp at hs
  | append_singleton l x ih =>
    intro hnd s hs
    have h3 := List.nodup_append.1 (by rwa [List.map_append] at hnd)
    have hstep : detailsMap oracle (l ++ [x]) = fun k =>
        if k = (fetchDetails oracle x).1 then (fetchDetails oracle x).2
        else detailsMap oracle l k := by
      unfold detailsMap
      rw [List.foldl_append]
      rfl
    rw [hstep]
    rcases List.mem_append.1 hs with hsl | hsx
    · have hne : s.id ≠ x.id := fun hc =>
        h3.2.2 (List.mem_map_of_mem RawShipment.id hsl) (by simp [hc])
      show (if s.id = (fetchDetails oracle x).1 then (fetchDetails oracle x).2
            else detailsMap oracle l s.id) = ownDetails oracle s
      rw [fetchDetails_fst, if_neg hne]
      exact ih h3.1 s hsl
    · have hx : s = x := by simpa using hsx
      subst hx
      show (if s.id = (fetchDetails oracle s).1 then (fetchDetails oracle s).2
            else detailsMap oracle l s.id) = ownDetails oracle s
      rw [fetchDetails_fst, if_pos rfl]
      rfl

/-- C7 corrected: enrichment always keeps every shipment (one enriched
shipment per raw row), and provided the shipment ids are pairwise
distinct, every shipment carries exactly its own fetch result, so the
group totals are the exact sums of per-member values and every member
whose fetch failed, timed out, or had no detail reference contributes
exactly zero to all three sums while still being counted. -/
theorem detail_zero_fill :
    ∀ (oracle : String → Option Details) (l : List RawShipment),
      (enrich oracle l).length = l.length ∧
      ((l.map RawShipment.id).Nodup →
        enrich oracle l = l.map (fun s => toShipment s (ownDetails oracle s)) ∧
        totalSent (enrich oracle l) = (l.map fun s => (ownDetails oracle s).sent).sum ∧
        totalReceived (enrich oracle l) =
          (l.map fun s => (ownDetails oracle s).received).sum ∧
        totalExcess (enrich oracle l) = (l.map fun s => (ownDetails oracle s).excess).sum ∧
        (∀ s ∈ l, s.detailUrl = none → ownDetails oracle s = ⟨0, 0, 0⟩) ∧
        (∀ s ∈ l, ∀ u, s.detailUrl = some u → oracle u = none →
          ownDetails oracle s = ⟨0, 0, 0⟩)) := by
  intro oracle l
  constructor
  · simp [enrich]
  · intro hnd
    have hmap : enrich oracle l = l.map fun s => toShipment s (ownDetails oracle s) :=
      List.map_congr_left fun s hs => by rw [detailsMap_eq_own oracle l hnd s hs]
    refine ⟨hmap, ?_, ?_, ?_, ?_, ?_⟩
    · rw [hmap]
      unfold totalSent
      rw [List.map_map]
      rfl
    · rw [hmap]
      unfold totalReceived
      rw [List.map_map]
      rfl
    · rw [hmap]
      unfold totalExcess
      rw [List.map_map]
      rfl
    · intro s _ hurl
      simp [ownDetails, fetchDetails, hurl]
    · intro s _ u hurl horacle
      simp [ownDetails, fetchDetails, hurl, horacle]

/-- C7 counterexample: two shipments share the id X; the first has no
detail reference, yet after enrichment it carries sent 5, taken from the
other fetch that overwrote the shared map slot. -/
theorem detail_zero_fill_cex :
    dup1.detailUrl = none ∧
    enrich dupOracle dupList =
      [⟨"X", 32400, Cell.dash, Cell.dash, "pending", 5, 0, 0⟩,
       ⟨"X", 33000, Cell.dash, Cell.dash, "pending", 5, 0, 0⟩] :=
  ⟨rfl, rfl⟩

/-- C7 witness with distinct ids and a timed-out fetch. -/
theorem detail_zero_fill_w :
    enrich wOracle wRaws = wRaws.map (fun s => toShipment s (ownDetails wOracle s)) ∧
    ownDetails wOracle wRaw2 = ⟨0, 0, 0⟩ :=
  ⟨((detail_zero_fill wOracle wRaws).2 (by decide)).1,
   ((detail_zero_fill wOracle wRaws).2 (by decide)).2.2.2.2.2 wRaw2 (by decide) "u" rfl rfl⟩

/-- C8: a run over any per-source results yields exactly one message per
source, and the message at each position is a function of that source
and its own result alone, so no failure crosses a source boundary; the
same holds for the full pipeline over any environments, processPvs being
total. -/
theorem orchestrator_outcomes :
    (∀ runs : List (String × Except String PvsResult),
      (mainMessages runs).length = runs.length ∧
      ∀ i : Nat, (mainMessages runs)[i]? =
        (runs[i]?).map fun p => outcomeMessage p.1 p.2) ∧
    (∀ cfg : List (String × PvsEnv),
      (runAll cfg).length = cfg.length ∧
      ∀ i : Nat, (runAll cfg)[i]? =
        (cfg[i]?).map fun p => outcomeMessage p.1 (.ok (processPvs p.2))) := by
  constructor
  · intro runs
    exact ⟨by simp [mainMessages], fun i => by simp [mainMessages]⟩
  · intro cfg
    exact ⟨by simp [runAll], fun i => by simp [runAll]⟩

/-- C9 corrected: two aggregations of one group agree on every derived
attribute except possibly the displayed duration text; they agree on
everything, and render identical blocks, when the group is closed with
both endpoints or has no earliest start; rendering itself is a pure
function of the group and attributes. -/
theorem aggregate_wallclock :
    ∀ (g : List Shipment) (t1 t2 : Int) (a1 a2 : Agg),
      aggregate g t1 = .ok a1 → aggregate g t2 = .ok a2 →
      (a1.earliestStart = a2.earliestStart ∧ a1.status = a2.status ∧
       a1.latestClose = a2.latestClose ∧ a1.durationSeconds = a2.durationSeconds) ∧
      ((a1.status = "closed" ∧ a1.earliestStart.isSome ∧ a1.latestClose.isSome) ∨
        a1.earliestStart = none → a1 = a2) ∧
      (∀ (idx : Nat) (today : String), a1 = a2 →
        renderBlock idx today g a1 = renderBlock idx today g a2) := by
  intro g t1 t2 a1 a2 h1 h2
  obtain ⟨e1, s1, d1, r1⟩ := aggregate_ok h1
  obtain ⟨e2, s2, d2, r2⟩ := aggregate_ok h2
  have hes : a1.earliestStart = a2.earliestStart := by
    rw [e1] at e2
    injection e2 with e2
  have hp : (a1.status, a1.latestClose) = (a2.status, a2.latestClose) := by
    rw [s1] at s2
    injection s2 with s2
  have hst : a1.status = a2.status := congrArg Prod.fst hp
  have hlc : a1.latestClose = a2.latestClose := congrArg Prod.snd hp
  have hds : a1.durationSeconds = a2.durationSeconds := by
    rw [d1, d2, hes, hst, hlc]
  refine ⟨⟨hes, hst, hlc, hds⟩, ?_, fun idx today heq => by rw [heq]⟩
  intro hcond
  have hstr : a1.durationStr = a2.durationStr := by
    rw [r1, r2, hes, hst, hlc]
    rcases hcond with ⟨hc, hesome, hlsome⟩ | hnone
    · obtain ⟨x, hx⟩ := Option.isSome_iff_exists.1 hesome
      obtain ⟨y, hy⟩ := Option.isSome_iff_exists.1 hlsome
      rw [hes] at hx
      rw [hlc] at hy
      have hc2 : a2.status = "closed" := hst ▸ hc
      rw [hx, hy]
      simp [durStr, hc2]
    · rw [hes] at hnone
      rw [hnone]
      cases hl : a2.latestClose <;> simp [durStr]
  rcases a1 with ⟨ea, sa, la, da, ra⟩
  rcases a2 with ⟨eb, sb, lb, db, rb⟩
  rw [Agg.mk.injEq]
  exact ⟨hes, hst, hlc, hds, hstr⟩

/-- C9 counterexample: the same in-progress group aggregated at two
different clock readings yields different derived attributes and
different rendered blocks, the displayed duration following the wall
clock. -/
theorem aggregate_wallclock_cex :
    aggregate progGroup 36000 = .ok progA1 ∧ aggregate progGroup 39600 = .ok progA2 ∧
    progA1 ≠ progA2 ∧
    renderBlock 1 "2024-01-01" progGroup progA1 ≠
      renderBlock 1 "2024-01-01" progGroup progA2 :=
  ⟨rfl, rfl, by decide, by decide⟩

/-- C9 witness at the closed scenario night group, aggregated at two
clock readings. -/
theorem aggregate_wallclock_w :
    aggNight = aggNight ∧
    renderBlock 1 "2024-01-01" [exN1, exN2] aggNight =
      renderBlock 1 "2024-01-01" [exN1, exN2] aggNight :=
  ⟨(aggregate_wallclock [exN1, exN2] 5 99 aggNight aggNight rfl rfl).2.1
      (Or.inl ⟨rfl, rfl, rfl⟩),
   (aggregate_wallclock [exN1, exN2] 5 99 aggNight aggNight rfl rfl).2.2 1 "2024-01-01" rfl⟩

/-- When the derived status is closed, neither earlier status branch
fired. -/
theorem statusOf_closed_conds {l : List String} (h : statusOf l = "closed") :
    "in_progress" ∉ l ∧ ¬ l.all (· == "pending") = true := by
  unfold statusOf at h
  by_cases h1 : "in_progress" ∈ l
  · rw [if_pos h1] at h
    exact absurd h (by decide)
  · rw [if_neg h1] at h
    by_cases h2 : l.all (· == "pending") = true
    · rw [if_pos h2] at h
      exact absurd h (by decide)
    · exact ⟨h1, h2⟩

/-- Python min raises as soon as a None takes part in a comparison,
which happens exactly on lists of two or more elements. -/
theorem pyMin_none_mem {l : List (Option Nat)} (hm : none ∈ l) (hl : 2 ≤ l.length) :
    pyMin l = .error pyCmpErr := by
  match l with
  | [] => simp at hm
  | [x] => rw [List.length_singleton] at hl; omega
  | x :: y :: t =>
    rw [show pyMin (x :: y :: t) =
        (if none ∈ x :: y :: t then .error pyCmpErr
         else .ok ((x :: y :: t).filterMap id).min?) from rfl, if_pos hm]

theorem pyMax_none_mem {l : List (Option Nat)} (hm : none ∈ l) (hl : 2 ≤ l.length) :
    pyMax l = .error pyCmpErr := by
  match l with
  | [] => simp at hm
  | [x] => rw [List.length_singleton] at hl; omega
  | x :: y :: t =>
    rw [show pyMax (x :: y :: t) =
        (if none ∈ x :: y :: t then .error pyCmpErr
         else .ok ((x :: y :: t).filterMap id).max?) from rfl, if_pos hm]

/-- A group with an unparseable start text among at least two start texts
makes the aggregation raise. -/
theorem aggregate_start_raises {g : List Shipment} {now : Int}
    (hm : none ∈ startCells g) (hl : 2 ≤ (startCells g).length) :
    aggregate g now = .error pyCmpErr := by
  have he : earliestStartE g = .error pyCmpErr := by
    unfold earliestStartE
    rw [if_neg fun hc => by rw [List.isEmpty_iff.1 hc] at hl; exact absurd hl (by decide)]
    exact pyMin_none_mem hm hl
  unfold aggregate
  rw [he]

/-- A closed group with clean start texts but an unparseable close text
among at least two close texts makes the aggregation raise. -/
theorem aggregate_close_raises {g : List Shipment} {now : Int}
    (hns : ∀ s ∈ g, s.unload_started_at ≠ Cell.invalid)
    (hst : statusOf (g.map Shipment.status) = "closed")
    (hm : none ∈ closeCells g) (hl : 2 ≤ (closeCells g).length) :
    aggregate g now = .error pyCmpErr := by
  have hnm : none ∉ startCells g := none_not_mem_cells hns
  have hes : earliestStartE g = .ok ((startCells g).filterMap id).min? := optE_min hnm
  have hcl : statusCloseE g = .error pyCmpErr := by
    unfold statusCloseE
    obtain ⟨hc1, hc2⟩ := statusOf_closed_conds hst
    rw [if_neg hc1, if_neg hc2,
      if_neg fun hc => by rw [List.isEmpty_iff.1 hc] at hl; exact absurd hl (by decide),
      pyMax_none_mem hm hl]
  unfold aggregate
  rw [hes, hcl]

/-- A raised aggregation aborts the report loop with that exception. -/
theorem buildBlocks_error {now : Int} {today : String} :
    ∀ (gs : List (List Shipment)) (idx : Nat),
      (∃ g ∈ gs, ∃ e, aggregate g now = .error e) →
      ∃ e2, buildBlocks today now idx gs = .error e2 := by
  intro gs
  induction gs with
  | nil =>
    intro idx h
    obtain ⟨g, hg, _⟩ := h
    simp at hg
  | cons g rest ih =>
    intro idx h
    cases ha : aggregate g now with
    | error e => exact ⟨e, by unfold buildBlocks; rw [ha]⟩
    | ok a =>
      rcases h with ⟨g2, hg2, e, he⟩
      rcases List.mem_cons.1 hg2 with hq | hg2m
      · rw [hq, ha] at he
        exact absurd he (by simp)
      · obtain ⟨e2, hb⟩ := ih (idx + 1) ⟨g2, hg2m, e, he⟩
        exact ⟨e2, by unfold buildBlocks; rw [ha, hb]⟩

/-- A raised aggregation anywhere discards the whole source report. -/
theorem buildSourceReport_error {pvsId today : String} {now : Int}
    {gs : List (List Shipment)}
    (h : ∃ g ∈ gs, ∃ e, aggregate g now = .error e) :
    ∃ e2, buildSourceReport pvsId today now gs = .error e2 := by
  obtain ⟨e2, hb⟩ := buildBlocks_error gs 1 h
  exact ⟨e2, by unfold buildSourceReport; rw [hb]⟩

/-- An exception escaping the report loop is caught at line 359 and
becomes the single Critical error outcome of the source. -/
theorem processPvs_critical {env : PvsEnv} {e : String}
    (h1 : env.loginPageStatus = 200) (h2 : env.loginRejected = false)
    (h3 : env.scraped.isEmpty = false)
    (hb : buildSourceReport env.pvsId env.today env.now
        (pipelineGroups (enrich env.oracle env.scraped)) = .error e) :
    processPvs env = .error ("Critical error: " ++ e) := by
  unfold processPvs
  rw [if_neg fun hc => hc h1, if_neg (by simp [h2]), if_neg (by simp [h3]), hb]

/-- The persistence path filters out unparseable entries before min. -/
theorem dbUnloadStart_filtered {g : List Shipment}
    (h : (dbStartTimes g).filterMap id ≠ []) :
    dbUnloadStart g = .ok ((dbStartTimes g).filterMap id).min? := by
  have hne : dbStartTimes g ≠ [] := fun hc => h (by rw [hc]; rfl)
  unfold dbUnloadStart
  rw [if_neg fun hc => hne (List.isEmpty_iff.1 hc),
    if_neg fun hc => h (List.isEmpty_iff.1 hc)]

/-- C10 corrected: an unparseable non-dash start text makes the report
path raise the None comparison error exactly when the start-text list
has at least two entries, and likewise for close texts of a closed group
with clean starts; a raised aggregation discards the whole source report
and is caught by the per-source handler as the single Critical error
outcome; the persistence path instead filters unparseable entries before
its min, so it succeeds whenever any start text parses. -/
theorem unparsable_start_behavior :
    ∀ (g : List Shipment) (now : Int),
      (none ∈ startCells g → 2 ≤ (startCells g).length →
        aggregate g now = .error pyCmpErr) ∧
      ((∀ s ∈ g, s.unload_started_at ≠ Cell.invalid) →
        statusOf (g.map Shipment.status) = "closed" →
        none ∈ closeCells g → 2 ≤ (closeCells g).length →
        aggregate g now = .error pyCmpErr) ∧
      (∀ (pvsId today : String) (gs : List (List Shipment)),
        g ∈ gs → none ∈ startCells g → 2 ≤ (startCells g).length →
        ∃ e2, buildSourceReport pvsId today now gs = .error e2) ∧
      (∀ (env : PvsEnv) (e : String),
        env.loginPageStatus = 200 → env.loginRejected = false →
        env.scraped.isEmpty = false →
        buildSourceReport env.pvsId env.today env.now
          (pipelineGroups (enrich env.oracle env.scraped)) = .error e →
        processPvs env = .error ("Critical error: " ++ e)) ∧
      ((dbStartTimes g).filterMap id ≠ [] →
        dbUnloadStart g = .ok ((dbStartTimes g).filterMap id).min?) :=
  fun g now =>
    ⟨fun hm hl => aggregate_start_raises hm hl,
     fun hns hst hm hl => aggregate_close_raises hns hst hm hl,
     fun pvsId today gs hg hm hl =>
       buildSourceReport_error ⟨g, hg, pyCmpErr, aggregate_start_raises hm hl⟩,
     fun env e h1 h2 h3 hb => processPvs_critical h1 h2 h3 hb,
     fun h => dbUnloadStart_filtered h⟩

/-- C10 counterexample: when the only non-dash start text is unparseable
the start list is the single None, Python min returns it without raising,
and the aggregation succeeds with no earliest start instead of producing
a Critical error. -/
theorem unparsable_start_cex :
    startCells badSingle = [none] ∧ bad1.unload_started_at = Cell.invalid ∧
    aggregate badSingle 0 = .ok ⟨none, "pending", none, 0, "0:00:00"⟩ :=
  ⟨rfl, rfl, rfl⟩

/-- C10 witness: a pair with one unparseable start text raises, the
whole source run of those rows yields the Critical error outcome, and
the persistence path still computes the earliest parsed start. -/
theorem unparsable_start_behavior_w :
    aggregate badPair 0 = .error pyCmpErr ∧
    processPvs envBad = .error ("Critical error: " ++ pyCmpErr) ∧
    dbUnloadStart badPair = .ok (some 33100) :=
  ⟨(unparsable_start_behavior badPair 0).1 (by decide) (by decide),
   (unparsable_start_behavior badPair 0).2.2.2.1 envBad pyCmpErr rfl rfl rfl (by rfl),
   ((unparsable_start_behavior badPair 0).2.2.2.2 (by decide)).trans rfl⟩
